import Mathlib

/-!
Verification development for the march-madness bracket generator
(`src/march-madness.py`).  The source is Python 2 (bare `print` statements),
so its `round` sends halfway cases away from zero; it is shallowly embedded
below: floats are modelled as exact rationals, Python 2's `round` by
`pyRound` (half away from zero), exceptions (`ZeroDivisionError`,
`AssertionError`, `IndexError`) by an explicit error type, and the global
`random` source by an explicit draw argument (`Fin 1000` for the 1000-ticket
hat; `random.randint(0, 999)` always returns a value in that range).
-/

namespace MarchMadness

/-- Runtime failures of the embedded code.  `zeroDivisionError`,
`assertionError` and `indexError` correspond to the Python exceptions the
script can actually raise.  `invalidOddsError` and `degenerateMatchupError`
are the error classes named by the specification; the source never defines
nor raises them, they exist here only so that spec-level statements about
them can be written down. -/
inductive Err where
  | zeroDivisionError : Err
  | assertionError : Err
  | indexError : Err
  | invalidOddsError : Err
  | degenerateMatchupError : Err
deriving Repr, DecidableEq

/-- `Team` object of the source: `name`, `seed`, `division`, `odds` and the
derived `probability = 1 / odds` (the win weight), plus the transient
`previous_upset` flag. -/
structure Team where
  name : String
  seed : String
  division : String
  odds : ℚ
  probability : ℚ
  previous_upset : Bool
deriving Repr, DecidableEq

/-- Python 2's `round(x)` to an integer: round to the nearest integer,
halfway cases away from zero (`round(0.5) == 1.0`, `round(-0.5) == -1.0`).
This differs from Python 3's half-to-even rule. -/
def pyRound (q : ℚ) : ℤ :=
  if q < 0 then -⌊-q + 1/2⌋ else ⌊q + 1/2⌋

/-- Python 2's `round(x, 3)`: round to 3 decimal places, half away from
zero. -/
def round3 (q : ℚ) : ℚ := (pyRound (q * 1000) : ℚ) / 1000

/-- `Team.__init__`: stores the fields and computes
`self.probability = 1 / odds`.  In Python `1 / odds` raises
`ZeroDivisionError` exactly when `odds == 0`; no other validation is
performed by the source. -/
def Team.init (name seed division : String) (odds : ℚ) : Except Err Team :=
  if odds = 0 then .error .zeroDivisionError
  else .ok { name := name, seed := seed, division := division, odds := odds,
             probability := 1 / odds, previous_upset := false }

/-- `CalculateWinProbabilities`: each side is
`round(weight / (weight1 + weight2), 3) * 100`, rounded independently.
Python's float division raises `ZeroDivisionError` when the denominator
`team1.probability + team2.probability` is zero. -/
def CalculateWinProbabilities (team1 team2 : Team) : Except Err (ℚ × ℚ) :=
  if team1.probability + team2.probability = 0 then .error .zeroDivisionError
  else .ok
    (round3 (team1.probability / (team1.probability + team2.probability)) * 100,
     round3 (team2.probability / (team1.probability + team2.probability)) * 100)

/-- `WeightedCoinFlip`: resets both teams' `previous_upset`, computes the two
win percentages, determines the underdog, fills the hat with
`int(round(p * 10, 0))` slips per team (`range` of a negative count is
empty, hence `Int.toNat`), asserts the hat holds exactly 1000 slips, draws
slip `r` (`random.randint(0, 999)`), and credits the winner with an upset by
comparing the winner's *name* against each team's name.  The two sequential
`if` statements of the source both assign `True`, so they are modelled as
one disjunction.  Returns the post-states of both teams together with the
winner (in Python the winner aliases one of the two mutated objects). -/
def WeightedCoinFlip (team1 team2 : Team) (r : Fin 1000) :
    Except Err (Team × Team × Team) :=
  let t1 : Team := { team1 with previous_upset := false }
  let t2 : Team := { team2 with previous_upset := false }
  match CalculateWinProbabilities t1 t2 with
  | .error e => .error e
  | .ok (p1, p2) =>
    let underdog : Option Nat :=
      if p2 < p1 then some 2 else if p1 < p2 then some 1 else none
    let n1 : Nat := (pyRound (p1 * 10)).toNat
    let n2 : Nat := (pyRound (p2 * 10)).toNat
    if n1 + n2 = 1000 then
      let winner : Team := if (r : Nat) < n1 then t1 else t2
      let upset : Bool :=
        decide ((winner.name = t1.name ∧ underdog = some 1) ∨
                (winner.name = t2.name ∧ underdog = some 2))
      let t1f : Team :=
        if (r : Nat) < n1 ∧ upset = true then { t1 with previous_upset := true }
        else t1
      let t2f : Team :=
        if ¬ (r : Nat) < n1 ∧ upset = true then { t2 with previous_upset := true }
        else t2
      .ok (t1f, t2f, if (r : Nat) < n1 then t1f else t2f)
    else
      .error .assertionError

/-- Body of the list comprehension of `SingleRoundPlayBall`, walking the
lineup two teams at a time; `i` counts the matchups so that matchup `i`
consumes draw `rs i`.  A trailing unpaired team corresponds to the
`lineup[index + 1]` access one past the end of the list (`IndexError`). -/
def SingleRoundPlayBallAux (rs : Nat → Fin 1000) :
    List Team → Nat → Except Err (List Team)
  | [], _ => .ok []
  | [_], _ => .error .indexError
  | t1 :: t2 :: rest, i =>
    match WeightedCoinFlip t1 t2 (rs i) with
    | .error e => .error e
    | .ok (_, _, w) =>
      match SingleRoundPlayBallAux rs rest (i + 1) with
      | .error e => .error e
      | .ok ws => .ok (w :: ws)

/-- `SingleRoundPlayBall`: builds the next-round lineup from the winners of
the adjacent pairs `(0,1), (2,3), …` of the current lineup. -/
def SingleRoundPlayBall (lineup : List Team) (rs : Nat → Fin 1000) :
    Except Err (List Team) :=
  SingleRoundPlayBallAux rs lineup 0

/-- Two team values agree on every field except possibly the transient
`previous_upset` flag. -/
def sameCore (a b : Team) : Prop :=
  a.name = b.name ∧ a.seed = b.seed ∧ a.division = b.division ∧
  a.odds = b.odds ∧ a.probability = b.probability

instance (a b : Team) : Decidable (sameCore a b) := by
  unfold sameCore
  infer_instance

/-! ### Elementary facts about `pyRound` -/

theorem floor_add_half (k : ℤ) : ⌊(k : ℚ) + 1/2⌋ = k := by
  rw [add_comm, Int.floor_add_int]
  have h : ⌊(1/2 : ℚ)⌋ = 0 := by
    rw [Int.floor_eq_iff]
    constructor <;> norm_num
  rw [h]
  ring

theorem pyRound_intCast (k : ℤ) : pyRound (k : ℚ) = k := by
  unfold pyRound
  split_ifs with h
  · have hc : (-(k : ℚ) + 1/2) = ((-k : ℤ) : ℚ) + 1/2 := by push_cast; ring
    rw [hc, floor_add_half]
    ring
  · exact floor_add_half k

theorem pyRound_nonneg {q : ℚ} (h : 0 ≤ q) : 0 ≤ pyRound q := by
  unfold pyRound
  rw [if_neg (not_lt.mpr h)]
  exact Int.floor_nonneg.mpr (by linarith)

theorem pyRound_le_of_le {q : ℚ} {m : ℤ} (h0 : 0 ≤ q) (h : q ≤ (m : ℚ)) :
    pyRound q ≤ m := by
  unfold pyRound
  rw [if_neg (not_lt.mpr h0)]
  have hm := Int.floor_le_floor (show q + 1/2 ≤ (m : ℚ) + 1/2 by linarith)
  rwa [floor_add_half] at hm

/-- Evaluation rule for `pyRound` on nonnegative arguments: everything in
the half-open band `[n - 1/2, n + 1/2)` rounds to `n` (the lower boundary is
the halfway case, which Python 2 rounds up, away from zero). -/
theorem pyRound_eq_of_bounds {q : ℚ} {n : ℤ} (h0 : 0 ≤ q)
    (h1 : (n : ℚ) - 1/2 ≤ q) (h2 : q < (n : ℚ) + 1/2) : pyRound q = n := by
  unfold pyRound
  rw [if_neg (not_lt.mpr h0)]
  rw [Int.floor_eq_iff]
  constructor
  · linarith
  · linarith

/-! ### Facts about the probability computation -/

theorem calc_ok (t1 t2 : Team) (h : t1.probability + t2.probability ≠ 0) :
    CalculateWinProbabilities t1 t2 =
      .ok (round3 (t1.probability / (t1.probability + t2.probability)) * 100,
           round3 (t2.probability / (t1.probability + t2.probability)) * 100) := by
  unfold CalculateWinProbabilities
  rw [if_neg h]

/-! ### Case analysis of `WeightedCoinFlip` -/

/-- When the hat check passes and the drawn slip belongs to `team1` (the
first `n1` slips of the hat), the winner is `team1`; its upset flag is set
exactly when the source's name-based attribution fires. -/
theorem wcf_t1_wins (t1 t2 : Team) (r : Fin 1000) (p1 p2 : ℚ)
    (hp : CalculateWinProbabilities t1 t2 = .ok (p1, p2))
    (hsum : (pyRound (p1 * 10)).toNat + (pyRound (p2 * 10)).toNat = 1000)
    (hr : (r : Nat) < (pyRound (p1 * 10)).toNat) :
    WeightedCoinFlip t1 t2 r =
      .ok ({ t1 with previous_upset := decide (p1 < p2 ∨ (t1.name = t2.name ∧ p2 < p1)) },
           { t2 with previous_upset := false },
           { t1 with previous_upset := decide (p1 < p2 ∨ (t1.name = t2.name ∧ p2 < p1)) }) := by
  have hp2 : CalculateWinProbabilities { t1 with previous_upset := false }
      { t2 with previous_upset := false } = .ok (p1, p2) := hp
  unfold WeightedCoinFlip
  dsimp only
  rw [hp2]
  dsimp only
  rw [if_pos hsum]
  simp only [if_pos hr]
  rcases lt_trichotomy p1 p2 with hlt | heq | hgt
  · have hnlt : ¬ p2 < p1 := by linarith
    by_cases hn : t1.name = t2.name <;> simp_all
  · subst heq
    simp_all [lt_irrefl]
  · have hnlt : ¬ p1 < p2 := by linarith
    by_cases hn : t1.name = t2.name <;> simp_all

/-- When the hat check passes and the drawn slip belongs to `team2`, the
winner is `team2`; its upset flag is set exactly when the source's
name-based attribution fires. -/
theorem wcf_t2_wins (t1 t2 : Team) (r : Fin 1000) (p1 p2 : ℚ)
    (hp : CalculateWinProbabilities t1 t2 = .ok (p1, p2))
    (hsum : (pyRound (p1 * 10)).toNat + (pyRound (p2 * 10)).toNat = 1000)
    (hr : ¬ (r : Nat) < (pyRound (p1 * 10)).toNat) :
    WeightedCoinFlip t1 t2 r =
      .ok ({ t1 with previous_upset := false },
           { t2 with previous_upset := decide ((t2.name = t1.name ∧ p1 < p2) ∨ p2 < p1) },
           { t2 with previous_upset := decide ((t2.name = t1.name ∧ p1 < p2) ∨ p2 < p1) }) := by
  have hp2 : CalculateWinProbabilities { t1 with previous_upset := false }
      { t2 with previous_upset := false } = .ok (p1, p2) := hp
  unfold WeightedCoinFlip
  dsimp only
  rw [hp2]
  dsimp only
  rw [if_pos hsum]
  simp only [if_neg hr]
  rcases lt_trichotomy p1 p2 with hlt | heq | hgt
  · have hnlt : ¬ p2 < p1 := by linarith
    by_cases hn : t2.name = t1.name <;> simp_all
  · subst heq
    simp_all [lt_irrefl]
  · have hnlt : ¬ p1 < p2 := by linarith
    by_cases hn : t2.name = t1.name <;> simp_all

/-- When the two ticket counts do not sum to 1000, the flip dies on
`assert len(hat) == 1000` before drawing anything. -/
theorem wcf_assert_fail (t1 t2 : Team) (r : Fin 1000) (p1 p2 : ℚ)
    (hp : CalculateWinProbabilities t1 t2 = .ok (p1, p2))
    (hsum : (pyRound (p1 * 10)).toNat + (pyRound (p2 * 10)).toNat ≠ 1000) :
    WeightedCoinFlip t1 t2 r = .error .assertionError := by
  have hp2 : CalculateWinProbabilities { t1 with previous_upset := false }
      { t2 with previous_upset := false } = .ok (p1, p2) := hp
  unfold WeightedCoinFlip
  dsimp only
  rw [hp2]
  dsimp only
  rw [if_neg hsum]

/-- A matchup of entrants with positive win weights either resolves (the
hat check passes and the winner is one of the two flag-rewritten teams) or
aborts with the fatal assertion error (the hat check fails, which the
source's half-away-from-zero rounding makes possible at decimal-tie weight
ratios). -/
theorem wcf_pos_total (t1 t2 : Team) (r : Fin 1000)
    (h1 : 0 < t1.probability) (h2 : 0 < t2.probability) :
    (∃ a b w, WeightedCoinFlip t1 t2 r = .ok (a, b, w) ∧
      sameCore a t1 ∧ sameCore b t2 ∧ (w = a ∨ w = b)) ∨
    WeightedCoinFlip t1 t2 r = .error .assertionError := by
  have hs : t1.probability + t2.probability ≠ 0 := by
    have hpos : 0 < t1.probability + t2.probability := by linarith
    exact ne_of_gt hpos
  have hp := calc_ok t1 t2 hs
  by_cases hsum :
      (pyRound ((round3 (t1.probability / (t1.probability + t2.probability)) * 100) * 10)).toNat +
      (pyRound ((round3 (t2.probability / (t1.probability + t2.probability)) * 100) * 10)).toNat
      = 1000
  · left
    by_cases hr : (r : Nat) <
        (pyRound ((round3 (t1.probability / (t1.probability + t2.probability)) * 100) * 10)).toNat
    · exact ⟨_, _, _, wcf_t1_wins t1 t2 r _ _ hp hsum hr,
        by simp [sameCore], by simp [sameCore], Or.inl rfl⟩
    · exact ⟨_, _, _, wcf_t2_wins t1 t2 r _ _ hp hsum hr,
        by simp [sameCore], by simp [sameCore], Or.inr rfl⟩
  · right
    exact wcf_assert_fail t1 t2 r _ _ hp hsum

/-- Whatever happened inside a successful `WeightedCoinFlip`, the returned
team values only differ from the inputs in the `previous_upset` flag and the
winner is one of the two returned teams.  No positivity assumption. -/
theorem wcf_core (t1 t2 : Team) (r : Fin 1000) (a b w : Team)
    (h : WeightedCoinFlip t1 t2 r = .ok (a, b, w)) :
    sameCore a t1 ∧ sameCore b t2 ∧ (w = a ∨ w = b) := by
  unfold WeightedCoinFlip at h
  dsimp only at h
  cases hc : CalculateWinProbabilities { t1 with previous_upset := false }
      { t2 with previous_upset := false } with
  | error e => rw [hc] at h; simp at h
  | ok pq =>
    rw [hc] at h
    obtain ⟨p1, p2⟩ := pq
    dsimp only at h
    split at h
    · simp only [Except.ok.injEq, Prod.mk.injEq] at h
      obtain ⟨ha, hb, hw⟩ := h
      subst ha
      subst hb
      subst hw
      refine ⟨?_, ?_, ?_⟩
      · split_ifs <;> simp [sameCore]
      · split_ifs <;> simp [sameCore]
      · split_ifs <;> simp
    · simp at h

/-! ### Concrete evaluations -/

theorem calc_eval_25_75 (t1 t2 : Team)
    (e1 : t1.probability = 1) (e2 : t2.probability = 3) :
    CalculateWinProbabilities t1 t2 = .ok (25, 75) := by
  unfold CalculateWinProbabilities round3
  rw [e1, e2, if_neg (by norm_num)]
  rw [show (1 : ℚ) / (1 + 3) * 1000 = ((250 : ℤ) : ℚ) from by norm_num,
      show (3 : ℚ) / (1 + 3) * 1000 = ((750 : ℤ) : ℚ) from by norm_num,
      pyRound_intCast, pyRound_intCast]
  norm_num

theorem calc_eval_0_100 (t1 t2 : Team)
    (e1 : t1.probability = 1) (e2 : t2.probability = 10000) :
    CalculateWinProbabilities t1 t2 = .ok (0, 100) := by
  unfold CalculateWinProbabilities round3
  rw [e1, e2, if_neg (by norm_num)]
  rw [show pyRound ((1 : ℚ) / (1 + 10000) * 1000) = 0 from
        pyRound_eq_of_bounds (by norm_num) (by norm_num) (by norm_num),
      show pyRound ((10000 : ℚ) / (1 + 10000) * 1000) = 1000 from
        pyRound_eq_of_bounds (by norm_num) (by norm_num) (by norm_num)]
  norm_num

/-- Evaluation at the decimal-tie weight ratio 15 : 1 (e.g. odds 2.0 and
30.0): the exact fractions are 15/16 = 0.9375 and 1/16 = 0.0625, and
Python 2's away-from-zero rounding sends both third-place ties up, giving
93.8% and 6.3%. -/
theorem calc_eval_tie (t1 t2 : Team)
    (e1 : t1.probability = 1/2) (e2 : t2.probability = 1/30) :
    CalculateWinProbabilities t1 t2 = .ok (469/5, 63/10) := by
  unfold CalculateWinProbabilities round3
  rw [e1, e2, if_neg (by norm_num)]
  rw [show pyRound ((1/2 : ℚ) / (1/2 + 1/30) * 1000) = 938 from
        pyRound_eq_of_bounds (by norm_num) (by norm_num) (by norm_num),
      show pyRound ((1/30 : ℚ) / (1/2 + 1/30) * 1000) = 63 from
        pyRound_eq_of_bounds (by norm_num) (by norm_num) (by norm_num)]
  norm_num

theorem tickets_25 : (pyRound ((25 : ℚ) * 10)).toNat = 250 := by
  rw [show (25 : ℚ) * 10 = ((250 : ℤ) : ℚ) from by norm_num, pyRound_intCast]
  rfl

theorem tickets_75 : (pyRound ((75 : ℚ) * 10)).toNat = 750 := by
  rw [show (75 : ℚ) * 10 = ((750 : ℤ) : ℚ) from by norm_num, pyRound_intCast]
  rfl

theorem tickets_50 : (pyRound ((50 : ℚ) * 10)).toNat = 500 := by
  rw [show (50 : ℚ) * 10 = ((500 : ℤ) : ℚ) from by norm_num, pyRound_intCast]
  rfl

theorem tickets_938 : (pyRound ((469/5 : ℚ) * 10)).toNat = 938 := by
  rw [show (469/5 : ℚ) * 10 = ((938 : ℤ) : ℚ) from by norm_num, pyRound_intCast]
  rfl

theorem tickets_63 : (pyRound ((63/10 : ℚ) * 10)).toNat = 63 := by
  rw [show (63/10 : ℚ) * 10 = ((63 : ℤ) : ℚ) from by norm_num, pyRound_intCast]
  rfl

/-! ### The round reduction -/

theorem srpb_aux_total : ∀ (lineup : List Team) (i0 : Nat) (rs : Nat → Fin 1000),
    (∀ t ∈ lineup, 0 < t.probability) → lineup.length % 2 = 0 →
    (∃ out, SingleRoundPlayBallAux rs lineup i0 = .ok out ∧
      out.length = lineup.length / 2 ∧
      ∀ i a, out[i]? = some a →
        ∃ b c, lineup[2*i]? = some b ∧ lineup[2*i+1]? = some c ∧
          (sameCore a b ∨ sameCore a c)) ∨
    SingleRoundPlayBallAux rs lineup i0 = .error .assertionError
  | [], i0, rs, _, _ =>
    Or.inl ⟨[], rfl, by simp, by intro i a h; simp at h⟩
  | [t], i0, rs, _, hpar => by
    simp at hpar
  | t1 :: t2 :: rest, i0, rs, hpos, hpar => by
    have h1 : 0 < t1.probability := hpos t1 (by simp)
    have h2 : 0 < t2.probability := hpos t2 (by simp)
    have hpar2 : rest.length % 2 = 0 := by
      simp only [List.length_cons] at hpar
      omega
    rcases wcf_pos_total t1 t2 (rs i0) h1 h2 with ⟨a, b, w, hw, hca, hcb, hwab⟩ | herr
    · rcases srpb_aux_total rest (i0 + 1) rs (fun t ht => hpos t (by simp [ht])) hpar2 with
        ⟨out, hout, hlen, hidx⟩ | herr2
      · left
        refine ⟨w :: out, ?_, ?_, ?_⟩
        · simp only [SingleRoundPlayBallAux]
          rw [hw]
          dsimp only
          rw [hout]
        · simp only [List.length_cons, hlen]
          omega
        · intro i a' ha'
          match i with
          | 0 =>
            simp only [List.getElem?_cons_zero, Option.some.injEq] at ha'
            subst ha'
            refine ⟨t1, t2, by simp, by simp, ?_⟩
            rcases hwab with rfl | rfl
            · exact Or.inl hca
            · exact Or.inr hcb
          | Nat.succ j =>
            simp only [List.getElem?_cons_succ] at ha'
            obtain ⟨b', c', hb', hc', hcore⟩ := hidx j a' ha'
            refine ⟨b', c', ?_, ?_, hcore⟩
            · rw [show 2 * (j + 1) = 2 * j + 1 + 1 from by ring]
              simpa using hb'
            · rw [show 2 * (j + 1) + 1 = 2 * j + 1 + 1 + 1 from by ring]
              simpa using hc'
      · right
        simp only [SingleRoundPlayBallAux]
        rw [hw]
        dsimp only
        rw [herr2]
    · right
      simp only [SingleRoundPlayBallAux]
      rw [herr]

theorem srpb_aux_odd_total : ∀ (lineup : List Team) (i0 : Nat) (rs : Nat → Fin 1000),
    (∀ t ∈ lineup, 0 < t.probability) → lineup.length % 2 = 1 →
    SingleRoundPlayBallAux rs lineup i0 = .error .indexError ∨
    SingleRoundPlayBallAux rs lineup i0 = .error .assertionError
  | [], i0, rs, _, hpar => by simp at hpar
  | [t], i0, rs, _, _ => Or.inl rfl
  | t1 :: t2 :: rest, i0, rs, hpos, hpar => by
    have h1 : 0 < t1.probability := hpos t1 (by simp)
    have h2 : 0 < t2.probability := hpos t2 (by simp)
    have hpar2 : rest.length % 2 = 1 := by
      simp only [List.length_cons] at hpar
      omega
    rcases wcf_pos_total t1 t2 (rs i0) h1 h2 with ⟨a, b, w, hw, -, -, -⟩ | herr
    · rcases srpb_aux_odd_total rest (i0 + 1) rs (fun t ht => hpos t (by simp [ht])) hpar2 with
        hrec | hrec
      · left
        simp only [SingleRoundPlayBallAux]
        rw [hw]
        dsimp only
        rw [hrec]
      · right
        simp only [SingleRoundPlayBallAux]
        rw [hw]
        dsimp only
        rw [hrec]
    · right
      simp only [SingleRoundPlayBallAux]
      rw [herr]

theorem srpb_aux_frame : ∀ (lineup : List Team) (i0 : Nat) (rs : Nat → Fin 1000)
    (out : List Team), SingleRoundPlayBallAux rs lineup i0 = .ok out →
    ∀ w ∈ out, ∃ s ∈ lineup, sameCore w s
  | [], i0, rs, out, h => by
    simp only [SingleRoundPlayBallAux, Except.ok.injEq] at h
    subst h
    intro w hw
    simp at hw
  | [t], i0, rs, out, h => by
    simp [SingleRoundPlayBallAux] at h
  | t1 :: t2 :: rest, i0, rs, out, h => by
    simp only [SingleRoundPlayBallAux] at h
    cases hw : WeightedCoinFlip t1 t2 (rs i0) with
    | error e => rw [hw] at h; simp at h
    | ok trip =>
      rw [hw] at h
      obtain ⟨a, b, w0⟩ := trip
      dsimp only at h
      cases hrec : SingleRoundPlayBallAux rs rest (i0 + 1) with
      | error e => rw [hrec] at h; simp at h
      | ok ws =>
        rw [hrec] at h
        simp only [Except.ok.injEq] at h
        subst h
        intro w hmem
        rcases List.mem_cons.mp hmem with rfl | hmem2
        · obtain ⟨hca, hcb, hor⟩ := wcf_core t1 t2 (rs i0) a b w hw
          rcases hor with rfl | rfl
          · exact ⟨t1, by simp, hca⟩
          · exact ⟨t2, by simp, hcb⟩
        · obtain ⟨s, hs, hcs⟩ := srpb_aux_frame rest (i0 + 1) rs ws hrec w hmem2
          exact ⟨s, by simp [hs], hcs⟩

/-- Upset-flag characterisation of a matchup that passes the hat check, when
the two entrants carry distinct names (so that the source's name comparison
coincides with identity of the winner). -/
theorem wcf_upset_char (t1 t2 : Team) (r : Fin 1000) (p1 p2 : ℚ)
    (hp : CalculateWinProbabilities t1 t2 = .ok (p1, p2))
    (hsum : (pyRound (p1 * 10)).toNat + (pyRound (p2 * 10)).toNat = 1000)
    (hname : t1.name ≠ t2.name) :
    ∃ a b w, WeightedCoinFlip t1 t2 r = .ok (a, b, w) ∧ (w = a ∨ w = b) ∧
      (a.previous_upset = true ↔ (w = a ∧ p1 < p2)) ∧
      (b.previous_upset = true ↔ (w = b ∧ p2 < p1)) ∧
      (p1 = p2 → a.previous_upset = false ∧ b.previous_upset = false) := by
  have hsym : t2.name ≠ t1.name := Ne.symm hname
  by_cases hr : (r : Nat) < (pyRound (p1 * 10)).toNat
  · refine ⟨_, _, _, wcf_t1_wins t1 t2 r p1 p2 hp hsum hr, Or.inl rfl, ?_, ?_, ?_⟩
    · simp [hname]
    · simp [hname]
    · intro hpp
      subst hpp
      simp
  · refine ⟨_, _, _, wcf_t2_wins t1 t2 r p1 p2 hp hsum hr, Or.inr rfl, ?_, ?_, ?_⟩
    · simp [hsym]
    · simp [hsym]
    · intro hpp
      subst hpp
      simp

theorem round3_scaled_bounds {x : ℚ} (h0 : 0 ≤ x) (h1 : x ≤ 1) :
    0 ≤ round3 x * 100 ∧ round3 x * 100 ≤ 100 := by
  have hk0 : 0 ≤ pyRound (x * 1000) := pyRound_nonneg (mul_nonneg h0 (by norm_num))
  have hk1 : pyRound (x * 1000) ≤ (1000 : ℤ) :=
    pyRound_le_of_le (mul_nonneg h0 (by norm_num)) (by push_cast; linarith)
  have hc0 : (0 : ℚ) ≤ ((pyRound (x * 1000) : ℤ) : ℚ) := by exact_mod_cast hk0
  have hc1 : ((pyRound (x * 1000) : ℤ) : ℚ) ≤ 1000 := by exact_mod_cast hk1
  unfold round3
  constructor <;> linarith

/-! ### Claims -/

/-- C1: the ticket-pool invariant is in fact violated by the program.  At
the decimal-tie weight ratio 15 : 1 (strength odds 2.0 and 30.0, positive
win weights 1/2 and 1/30) the independently rounded percentages are 93.8 and
6.3, the ticket counts are 938 + 63 = 1001 ≠ 1000, and the flip aborts on
its own `assert len(hat) == 1000` — the code contradicts its own fatal
check, so the claimed "sums to exactly 1000, the check never fires" is a
defect of the code's rounding policy (which the spec itself says such a
violation would indicate). -/
theorem ticket_pool_code_bug :
    CalculateWinProbabilities
      { name := "A", seed := "1", division := "Midwest", odds := 2,
        probability := 1/2, previous_upset := false }
      { name := "B", seed := "2", division := "Midwest", odds := 30,
        probability := 1/30, previous_upset := false } = .ok (469/5, 63/10) ∧
    (pyRound ((469/5 : ℚ) * 10)).toNat + (pyRound ((63/10 : ℚ) * 10)).toNat = 1001 ∧
    WeightedCoinFlip
      { name := "A", seed := "1", division := "Midwest", odds := 2,
        probability := 1/2, previous_upset := false }
      { name := "B", seed := "2", division := "Midwest", odds := 30,
        probability := 1/30, previous_upset := false } ⟨0, by norm_num⟩ =
      .error .assertionError := by
  have hp := calc_eval_tie
    (⟨"A", "1", "Midwest", 2, 1/2, false⟩ : Team)
    (⟨"B", "2", "Midwest", 30, 1/30, false⟩ : Team) rfl rfl
  refine ⟨hp, by rw [tickets_938, tickets_63], ?_⟩
  exact wcf_assert_fail _ _ _ _ _ hp (by rw [tickets_938, tickets_63]; norm_num)

/-- C2 counterexample: two entrants with positive win weights 1 and 10000
get the percentages 0 and 100 exactly, which are not inside the half-open
range (0, 100) claimed by the spec. -/
theorem calc_prob_range_counterexample :
    CalculateWinProbabilities
      { name := "A", seed := "1", division := "Midwest", odds := 1,
        probability := 1, previous_upset := false }
      { name := "B", seed := "2", division := "Midwest", odds := 1/10000,
        probability := 10000, previous_upset := false } = .ok (0, 100) ∧
    0 < (1 : ℚ) ∧ 0 < (10000 : ℚ) ∧ ¬ (0 < (0 : ℚ)) ∧ ¬ ((100 : ℚ) < 100) :=
  ⟨calc_eval_0_100 _ _ rfl rfl, by norm_num, by norm_num, by norm_num, by norm_num⟩

/-- C2 (amended): for positive win weights the probability computation
returns exactly `round3(w / (w_A + w_B)) * 100` for each side, each side
rounded independently; both percentages lie in the closed range [0, 100]
(the endpoints are attained for extreme weight ratios, so the spec's
half-open range (0, 100) is corrected to the closed one). -/
theorem calc_prob_formula_range (t1 t2 : Team)
    (h1 : 0 < t1.probability) (h2 : 0 < t2.probability) :
    CalculateWinProbabilities t1 t2 =
      .ok (round3 (t1.probability / (t1.probability + t2.probability)) * 100,
           round3 (t2.probability / (t1.probability + t2.probability)) * 100) ∧
    0 ≤ round3 (t1.probability / (t1.probability + t2.probability)) * 100 ∧
    round3 (t1.probability / (t1.probability + t2.probability)) * 100 ≤ 100 ∧
    0 ≤ round3 (t2.probability / (t1.probability + t2.probability)) * 100 ∧
    round3 (t2.probability / (t1.probability + t2.probability)) * 100 ≤ 100 := by
  have hs : 0 < t1.probability + t2.probability := by linarith
  have b1 := round3_scaled_bounds (div_nonneg h1.le hs.le)
    ((div_le_one hs).mpr (by linarith))
  have b2 := round3_scaled_bounds (div_nonneg h2.le hs.le)
    ((div_le_one hs).mpr (by linarith))
  exact ⟨calc_ok t1 t2 (ne_of_gt hs), b1.1, b1.2, b2.1, b2.2⟩

/-- Witness for the amended C2 at a concrete 25% / 75% matchup. -/
theorem calc_prob_formula_range_witness :
    CalculateWinProbabilities
      { name := "A", seed := "1", division := "Midwest", odds := 1,
        probability := 1, previous_upset := false }
      { name := "B", seed := "2", division := "Midwest", odds := 1/3,
        probability := 3, previous_upset := false } =
      .ok (round3 ((1 : ℚ) / (1 + 3)) * 100, round3 ((3 : ℚ) / (1 + 3)) * 100) ∧
    0 ≤ round3 ((1 : ℚ) / (1 + 3)) * 100 ∧
    round3 ((1 : ℚ) / (1 + 3)) * 100 ≤ 100 ∧
    0 ≤ round3 ((3 : ℚ) / (1 + 3)) * 100 ∧
    round3 ((3 : ℚ) / (1 + 3)) * 100 ≤ 100 :=
  calc_prob_formula_range _ _ (by norm_num) (by norm_num)

/-- C3 counterexample: the even two-entrant lineup with positive win weights
1/2 and 1/30 (the 15 : 1 decimal-tie ratio) does not reduce to a one-entrant
lineup — its single matchup fails the hat check and the whole reduction
aborts with the assertion error. -/
theorem single_round_reduction_counterexample :
    SingleRoundPlayBall
      [{ name := "A", seed := "1", division := "Midwest", odds := 2,
         probability := 1/2, previous_upset := false },
       { name := "B", seed := "2", division := "Midwest", odds := 30,
         probability := 1/30, previous_upset := false }]
      (fun _ => ⟨0, by norm_num⟩) = .error .assertionError ∧
    0 < (1/2 : ℚ) ∧ 0 < (1/30 : ℚ) := by
  have hp := calc_eval_tie
    (⟨"A", "1", "Midwest", 2, 1/2, false⟩ : Team)
    (⟨"B", "2", "Midwest", 30, 1/30, false⟩ : Team) rfl rfl
  have hwcf : WeightedCoinFlip
      (⟨"A", "1", "Midwest", 2, 1/2, false⟩ : Team)
      (⟨"B", "2", "Midwest", 30, 1/30, false⟩ : Team) ⟨0, by norm_num⟩ =
      .error .assertionError :=
    wcf_assert_fail _ _ _ _ _ hp (by rw [tickets_938, tickets_63]; norm_num)
  refine ⟨?_, by norm_num, by norm_num⟩
  simp only [SingleRoundPlayBall, SingleRoundPlayBallAux]
  rw [hwcf]

/-- C3 (amended): for every lineup of even length N ≥ 2 of positive-weight
entrants, the single-round reduction either returns a lineup of length N/2
in which the entrant at position i is, up to the rewritten upset flag, one
of the two entrants at input positions 2i and 2i+1 (pair order, no
cross-pair interaction) — or, when some adjacent pair's ticket counts fail
the 1000-slip check (a decimal-tie weight ratio under the source's rounding),
the whole reduction aborts with the fatal assertion error. -/
theorem single_round_reduction (lineup : List Team) (rs : Nat → Fin 1000)
    (hpos : ∀ t ∈ lineup, 0 < t.probability)
    (heven : lineup.length % 2 = 0) (_htwo : 2 ≤ lineup.length) :
    (∃ out, SingleRoundPlayBall lineup rs = .ok out ∧
      out.length = lineup.length / 2 ∧
      ∀ i a, out[i]? = some a →
        ∃ b c, lineup[2*i]? = some b ∧ lineup[2*i+1]? = some c ∧
          (sameCore a b ∨ sameCore a c)) ∨
    SingleRoundPlayBall lineup rs = .error .assertionError :=
  srpb_aux_total lineup 0 rs hpos heven

/-- Witness for the amended C3 on a concrete two-team lineup. -/
theorem single_round_reduction_witness :
    (∃ out, SingleRoundPlayBall
        [{ name := "A", seed := "1", division := "Midwest", odds := 1,
           probability := 1, previous_upset := false },
         { name := "B", seed := "2", division := "Midwest", odds := 1/3,
           probability := 3, previous_upset := false }] (fun _ => ⟨0, by norm_num⟩) =
        .ok out ∧
      out.length = 1 ∧
      ∀ i a, out[i]? = some a →
        ∃ b c,
          [{ name := "A", seed := "1", division := "Midwest", odds := (1 : ℚ),
             probability := (1 : ℚ), previous_upset := false },
           { name := "B", seed := "2", division := "Midwest", odds := 1/3,
             probability := 3, previous_upset := false }][2*i]? = some b ∧
          [{ name := "A", seed := "1", division := "Midwest", odds := (1 : ℚ),
             probability := (1 : ℚ), previous_upset := false },
           { name := "B", seed := "2", division := "Midwest", odds := 1/3,
             probability := 3, previous_upset := false }][2*i+1]? = some c ∧
          (sameCore a b ∨ sameCore a c)) ∨
    SingleRoundPlayBall
      [{ name := "A", seed := "1", division := "Midwest", odds := 1,
         probability := 1, previous_upset := false },
       { name := "B", seed := "2", division := "Midwest", odds := 1/3,
         probability := 3, previous_upset := false }] (fun _ => ⟨0, by norm_num⟩) =
      .error .assertionError :=
  single_round_reduction _ _
    (by
      intro t ht
      simp only [List.mem_cons, List.mem_singleton, List.not_mem_nil, or_false] at ht
      rcases ht with rfl | rfl <;> norm_num)
    (by simp) (by simp)

/-- C4 counterexample: when both entrants share the name "X" and the
favorite (75%) wins, the favorite is still credited with an upset win,
because the source attributes the upset by comparing names. -/
theorem wcf_upset_flag_counterexample :
    WeightedCoinFlip
      { name := "X", seed := "1", division := "D", odds := 1,
        probability := 1, previous_upset := false }
      { name := "X", seed := "2", division := "D", odds := 1/3,
        probability := 3, previous_upset := false } ⟨999, by norm_num⟩ =
      .ok ({ name := "X", seed := "1", division := "D", odds := 1,
             probability := 1, previous_upset := false },
           { name := "X", seed := "2", division := "D", odds := 1/3,
             probability := 3, previous_upset := true },
           { name := "X", seed := "2", division := "D", odds := 1/3,
             probability := 3, previous_upset := true }) ∧
    CalculateWinProbabilities
      { name := "X", seed := "1", division := "D", odds := 1,
        probability := 1, previous_upset := false }
      { name := "X", seed := "2", division := "D", odds := 1/3,
        probability := 3, previous_upset := false } = .ok (25, 75) ∧
    ¬ ((75 : ℚ) < 25) := by
  have hp := calc_eval_25_75
    (⟨"X", "1", "D", 1, 1, false⟩ : Team) (⟨"X", "2", "D", 1/3, 3, false⟩ : Team)
    rfl rfl
  refine ⟨?_, hp, by norm_num⟩
  rw [wcf_t2_wins _ _ _ 25 75 hp (by rw [tickets_25, tickets_75])
      (by rw [tickets_25]; norm_num)]
  norm_num

/-- C4 (amended): both entrants' upset flags are reset at the start of the
matchup, and — provided the two entrants carry distinct names (the source
attributes the upset by name) and the matchup passes the 1000-ticket check
(so that a winner is drawn at all; decimal-tie ratios abort instead) — the
drawn winner's flag ends up true iff the winner had the strictly lower
computed win probability; when the two probabilities are equal there is no
underdog and both flags stay false. -/
theorem wcf_upset_flag_correct (t1 t2 : Team) (r : Fin 1000) (p1 p2 : ℚ)
    (_h1 : 0 < t1.probability) (_h2 : 0 < t2.probability)
    (hp : CalculateWinProbabilities t1 t2 = .ok (p1, p2))
    (hsum : (pyRound (p1 * 10)).toNat + (pyRound (p2 * 10)).toNat = 1000)
    (hname : t1.name ≠ t2.name) :
    ∃ a b w, WeightedCoinFlip t1 t2 r = .ok (a, b, w) ∧ (w = a ∨ w = b) ∧
      (a.previous_upset = true ↔ (w = a ∧ p1 < p2)) ∧
      (b.previous_upset = true ↔ (w = b ∧ p2 < p1)) ∧
      (p1 = p2 → a.previous_upset = false ∧ b.previous_upset = false) :=
  wcf_upset_char t1 t2 r p1 p2 hp hsum hname

/-- Witness for the amended C4 at a concrete 25% / 75% matchup. -/
theorem wcf_upset_flag_correct_witness :
    ∃ a b w, WeightedCoinFlip
        { name := "A", seed := "1", division := "Midwest", odds := 1,
          probability := 1, previous_upset := false }
        { name := "B", seed := "2", division := "Midwest", odds := 1/3,
          probability := 3, previous_upset := false } ⟨0, by norm_num⟩ =
        .ok (a, b, w) ∧ (w = a ∨ w = b) ∧
      (a.previous_upset = true ↔ (w = a ∧ (25 : ℚ) < 75)) ∧
      (b.previous_upset = true ↔ (w = b ∧ (75 : ℚ) < 25)) ∧
      ((25 : ℚ) = 75 → a.previous_upset = false ∧ b.previous_upset = false) :=
  wcf_upset_flag_correct _ _ _ 25 75 (by norm_num) (by norm_num)
    (calc_eval_25_75 _ _ rfl rfl) (by rw [tickets_25, tickets_75]) (by decide)

/-- C5 counterexample: a negative `strength_odds` is not rejected —
construction succeeds and stores a negative win weight, so construction does
not fail for every `strength_odds ≤ 0`. -/
theorem team_init_counterexample :
    Team.init "A" "1" "Midwest" (-1) =
      .ok { name := "A", seed := "1", division := "Midwest", odds := -1,
            probability := -1, previous_upset := false } ∧
    (-1 : ℚ) ≤ 0 := by
  constructor
  · unfold Team.init
    rw [if_neg (by norm_num)]
    norm_num
  · norm_num

/-- C5 (amended): construction fails (with an unguarded division-by-zero
error, there is no `InvalidOddsError`) only when `strength_odds = 0`; for
any nonzero odds it succeeds and stores `win_weight = 1 / strength_odds`,
which is positive exactly when the odds are positive. -/
theorem team_init_spec :
    (∀ (name seed division : String) (odds : ℚ), odds = 0 →
        Team.init name seed division odds = .error .zeroDivisionError) ∧
    (∀ (name seed division : String) (odds : ℚ), odds ≠ 0 →
        Team.init name seed division odds =
          .ok { name := name, seed := seed, division := division, odds := odds,
                probability := 1 / odds, previous_upset := false }) ∧
    (∀ (name seed division : String) (odds : ℚ), 0 < odds →
        ∃ t, Team.init name seed division odds = .ok t ∧ 0 < t.probability) := by
  refine ⟨?_, ?_, ?_⟩
  · intro n s d o ho
    unfold Team.init
    rw [if_pos ho]
  · intro n s d o ho
    unfold Team.init
    rw [if_neg ho]
  · intro n s d o ho
    refine ⟨{ name := n, seed := s, division := d, odds := o,
              probability := 1 / o, previous_upset := false }, ?_, ?_⟩
    · unfold Team.init
      rw [if_neg (ne_of_gt ho)]
    · exact one_div_pos.mpr ho

/-- Witness for the amended C5 on three concrete odds values. -/
theorem team_init_spec_witness :
    Team.init "A" "1" "Midwest" 0 = .error .zeroDivisionError ∧
    Team.init "B" "2" "West" 2 =
      .ok { name := "B", seed := "2", division := "West", odds := 2,
            probability := 1/2, previous_upset := false } ∧
    ∃ t, Team.init "C" "3" "South" 4 = .ok t ∧ 0 < t.probability :=
  ⟨team_init_spec.1 _ _ _ 0 rfl,
   team_init_spec.2.1 _ _ _ 2 (by norm_num),
   team_init_spec.2.2 _ _ _ 4 (by norm_num)⟩

/-- C6 counterexample: when both entrants have zero win weight the
computation does fail, but with the unguarded division-by-zero error — the
source has no dedicated degenerate-matchup guard. -/
theorem calc_degenerate_counterexample :
    CalculateWinProbabilities
      { name := "A", seed := "1", division := "D", odds := 1,
        probability := 0, previous_upset := false }
      { name := "B", seed := "2", division := "D", odds := 1,
        probability := 0, previous_upset := false } = .error .zeroDivisionError ∧
    (Except.error .zeroDivisionError : Except Err (ℚ × ℚ)) ≠
      .error .degenerateMatchupError := by
  constructor
  · unfold CalculateWinProbabilities
    rw [if_pos (by norm_num)]
  · simp

/-- C6 (amended): for every pairing in which both entrants have zero win
weight, the probability computation fails with the division-by-zero error
raised when dividing by the zero weight sum (not with a dedicated
`DegenerateMatchupError`, which the source never defines). -/
theorem calc_zero_weights_division_error (t1 t2 : Team)
    (h1 : t1.probability = 0) (h2 : t2.probability = 0) :
    CalculateWinProbabilities t1 t2 = .error .zeroDivisionError := by
  unfold CalculateWinProbabilities
  rw [if_pos (by rw [h1, h2]; norm_num)]

/-- Witness for the amended C6 at concrete zero-weight teams. -/
theorem calc_zero_weights_division_error_witness :
    CalculateWinProbabilities
      { name := "C", seed := "3", division := "D", odds := 2,
        probability := 0, previous_upset := false }
      { name := "E", seed := "4", division := "D", odds := 2,
        probability := 0, previous_upset := false } = .error .zeroDivisionError :=
  calc_zero_weights_division_error _ _ rfl rfl

/-- C7: an equal-weight matchup computes exactly 50.0 for both sides (the
fraction is exactly 1/2, no decimal tie, so the tie rule is irrelevant and
the hat splits 500/500), and whatever slip is drawn, no underdog exists and
both returned teams' upset flags — in particular the winner's — are false. -/
theorem equal_weight_matchup (t1 t2 : Team) (r : Fin 1000)
    (h1 : 0 < t1.probability) (heq : t2.probability = t1.probability) :
    CalculateWinProbabilities t1 t2 = .ok (50, 50) ∧
    ∃ a b w, WeightedCoinFlip t1 t2 r = .ok (a, b, w) ∧ (w = a ∨ w = b) ∧
      a.previous_upset = false ∧ b.previous_upset = false := by
  have hs : t1.probability + t1.probability ≠ 0 := by
    have hpos : 0 < t1.probability + t1.probability := by linarith
    exact ne_of_gt hpos
  have hcalc : CalculateWinProbabilities t1 t2 = .ok (50, 50) := by
    unfold CalculateWinProbabilities round3
    rw [heq, if_neg hs]
    have hne : t1.probability ≠ 0 := ne_of_gt h1
    have hx : t1.probability / (t1.probability + t1.probability) * 1000 =
        ((500 : ℤ) : ℚ) := by
      push_cast
      field_simp
      ring
    rw [hx, pyRound_intCast]
    norm_num
  have hsum : (pyRound ((50 : ℚ) * 10)).toNat + (pyRound ((50 : ℚ) * 10)).toNat = 1000 := by
    rw [tickets_50]
  refine ⟨hcalc, ?_⟩
  by_cases hr : (r : Nat) < (pyRound ((50 : ℚ) * 10)).toNat
  · refine ⟨_, _, _, wcf_t1_wins t1 t2 r 50 50 hcalc hsum hr, Or.inl rfl, ?_, ?_⟩
    · simp
    · simp
  · refine ⟨_, _, _, wcf_t2_wins t1 t2 r 50 50 hcalc hsum hr, Or.inr rfl, ?_, ?_⟩
    · simp
    · simp

/-- Witness for C7 at a concrete equal-weight matchup. -/
theorem equal_weight_matchup_witness :
    CalculateWinProbabilities
      { name := "A", seed := "1", division := "Midwest", odds := 1,
        probability := 1, previous_upset := false }
      { name := "B", seed := "2", division := "Midwest", odds := 1,
        probability := 1, previous_upset := false } = .ok (50, 50) ∧
    ∃ a b w, WeightedCoinFlip
        { name := "A", seed := "1", division := "Midwest", odds := 1,
          probability := 1, previous_upset := false }
        { name := "B", seed := "2", division := "Midwest", odds := 1,
          probability := 1, previous_upset := false } ⟨0, by norm_num⟩ =
        .ok (a, b, w) ∧ (w = a ∨ w = b) ∧
      a.previous_upset = false ∧ b.previous_upset = false :=
  equal_weight_matchup _ _ _ (by norm_num) rfl

/-- C8: resolving a matchup only rewrites the `previous_upset` flags — every
other field of both entrants is unchanged and the winner is one of the two
returned entrants; and a successful round reduction returns a fresh winners
list each of whose entries agrees with some input entrant on every field
except possibly the upset flag. -/
theorem frame_preservation :
    (∀ (t1 t2 : Team) (r : Fin 1000) (a b w : Team),
        WeightedCoinFlip t1 t2 r = .ok (a, b, w) →
        sameCore a t1 ∧ sameCore b t2 ∧ (w = a ∨ w = b)) ∧
    (∀ (lineup : List Team) (rs : Nat → Fin 1000) (out : List Team),
        SingleRoundPlayBall lineup rs = .ok out →
        ∀ w ∈ out, ∃ s ∈ lineup, sameCore w s) :=
  ⟨wcf_core, fun lineup rs out h => srpb_aux_frame lineup 0 rs out h⟩

/-- Witness for C8 at a concrete resolved matchup. -/
theorem frame_preservation_witness :
    sameCore
      { name := "A", seed := "1", division := "Midwest", odds := 1,
        probability := 1, previous_upset := true }
      { name := "A", seed := "1", division := "Midwest", odds := 1,
        probability := 1, previous_upset := false } ∧
    sameCore
      { name := "B", seed := "2", division := "Midwest", odds := 1/3,
        probability := 3, previous_upset := false }
      { name := "B", seed := "2", division := "Midwest", odds := 1/3,
        probability := 3, previous_upset := false } ∧
    (({ name := "A", seed := "1", division := "Midwest", odds := 1,
        probability := 1, previous_upset := true } : Team) =
       { name := "A", seed := "1", division := "Midwest", odds := 1,
         probability := 1, previous_upset := true } ∨
     ({ name := "A", seed := "1", division := "Midwest", odds := 1,
        probability := 1, previous_upset := true } : Team) =
       { name := "B", seed := "2", division := "Midwest", odds := 1/3,
         probability := 3, previous_upset := false }) :=
  frame_preservation.1 _ _ ⟨0, by norm_num⟩ _ _ _
    (by
      rw [wcf_t1_wins _ _ _ 25 75 (calc_eval_25_75 _ _ rfl rfl)
          (by rw [tickets_25, tickets_75]) (by rw [tickets_25]; norm_num)]
      norm_num)

/-- C9 counterexample: an odd lineup whose first pair has the decimal-tie
weight ratio 15 : 1 aborts with the assertion error at that first matchup,
before the out-of-range access at the end of the list is ever reached — so
the odd-length failure is not always the out-of-range error. -/
theorem odd_lineup_counterexample :
    SingleRoundPlayBall
      [{ name := "A", seed := "1", division := "Midwest", odds := 2,
         probability := 1/2, previous_upset := false },
       { name := "B", seed := "2", division := "Midwest", odds := 30,
         probability := 1/30, previous_upset := false },
       { name := "C", seed := "3", division := "Midwest", odds := 1,
         probability := 1, previous_upset := false }]
      (fun _ => ⟨0, by norm_num⟩) = .error .assertionError ∧
    Err.assertionError ≠ Err.indexError := by
  have hp := calc_eval_tie
    (⟨"A", "1", "Midwest", 2, 1/2, false⟩ : Team)
    (⟨"B", "2", "Midwest", 30, 1/30, false⟩ : Team) rfl rfl
  have hwcf : WeightedCoinFlip
      (⟨"A", "1", "Midwest", 2, 1/2, false⟩ : Team)
      (⟨"B", "2", "Midwest", 30, 1/30, false⟩ : Team) ⟨0, by norm_num⟩ =
      .error .assertionError :=
    wcf_assert_fail _ _ _ _ _ hp (by rw [tickets_938, tickets_63]; norm_num)
  refine ⟨?_, by simp⟩
  simp only [SingleRoundPlayBall, SingleRoundPlayBallAux]
  rw [hwcf]

/-- C9 (amended): on a lineup of odd length of positive-weight entrants the
round reduction never returns a reduced lineup: it fails with the
out-of-range index error from the last pair access — unless an earlier
matchup's ticket-count check fails first (a decimal-tie weight ratio), in
which case it aborts with the assertion error. -/
theorem odd_lineup_index_error (lineup : List Team) (rs : Nat → Fin 1000)
    (hpos : ∀ t ∈ lineup, 0 < t.probability)
    (hodd : lineup.length % 2 = 1) :
    SingleRoundPlayBall lineup rs = .error .indexError ∨
    SingleRoundPlayBall lineup rs = .error .assertionError :=
  srpb_aux_odd_total lineup 0 rs hpos hodd

/-- Witness for the amended C9 on a concrete one-team lineup. -/
theorem odd_lineup_index_error_witness :
    SingleRoundPlayBall
      [{ name := "A", seed := "1", division := "Midwest", odds := 1,
         probability := 1, previous_upset := false }] (fun _ => ⟨0, by norm_num⟩) =
      .error .indexError ∨
    SingleRoundPlayBall
      [{ name := "A", seed := "1", division := "Midwest", odds := 1,
         probability := 1, previous_upset := false }] (fun _ => ⟨0, by norm_num⟩) =
      .error .assertionError :=
  odd_lineup_index_error _ _
    (by
      intro t ht
      simp only [List.mem_singleton] at ht
      subst ht
      norm_num)
    (by simp)

/-- C10: the upset is attributed by comparing the winner's name with each
entrant's name.  For every matchup that actually resolves to a winner, if
the entrants' names are distinct this is equivalent to identifying the
winner itself (the flag ends up true iff the winner had the strictly lower
probability); but when both entrants share a name there is a matchup in
which the favorite wins and is nevertheless flagged as an upset winner. -/
theorem wcf_name_attribution :
    (∀ (t1 t2 : Team) (r : Fin 1000) (p1 p2 : ℚ) (a b w : Team),
        CalculateWinProbabilities t1 t2 = .ok (p1, p2) →
        WeightedCoinFlip t1 t2 r = .ok (a, b, w) → t1.name ≠ t2.name →
        (w = a ∨ w = b) ∧
        (a.previous_upset = true ↔ (w = a ∧ p1 < p2)) ∧
        (b.previous_upset = true ↔ (w = b ∧ p2 < p1))) ∧
    (WeightedCoinFlip
        { name := "Y", seed := "1", division := "D", odds := 1,
          probability := 1, previous_upset := false }
        { name := "Y", seed := "2", division := "D", odds := 1/3,
          probability := 3, previous_upset := false } ⟨998, by norm_num⟩ =
      .ok ({ name := "Y", seed := "1", division := "D", odds := 1,
             probability := 1, previous_upset := false },
           { name := "Y", seed := "2", division := "D", odds := 1/3,
             probability := 3, previous_upset := true },
           { name := "Y", seed := "2", division := "D", odds := 1/3,
             probability := 3, previous_upset := true }) ∧
      CalculateWinProbabilities
        { name := "Y", seed := "1", division := "D", odds := 1,
          probability := 1, previous_upset := false }
        { name := "Y", seed := "2", division := "D", odds := 1/3,
          probability := 3, previous_upset := false } = .ok (25, 75) ∧
      (25 : ℚ) < 75) := by
  constructor
  · intro t1 t2 r p1 p2 a b w hp h hn
    have hsum : (pyRound (p1 * 10)).toNat + (pyRound (p2 * 10)).toNat = 1000 := by
      by_contra hne
      rw [wcf_assert_fail t1 t2 r p1 p2 hp hne] at h
      exact absurd h (by simp)
    obtain ⟨A, B, W, hW, e2, e3, e4, -⟩ := wcf_upset_char t1 t2 r p1 p2 hp hsum hn
    rw [h] at hW
    simp only [Except.ok.injEq, Prod.mk.injEq] at hW
    obtain ⟨ha, hb, hw⟩ := hW
    subst ha
    subst hb
    subst hw
    exact ⟨e2, e3, e4⟩
  · have hp := calc_eval_25_75
      (⟨"Y", "1", "D", 1, 1, false⟩ : Team) (⟨"Y", "2", "D", 1/3, 3, false⟩ : Team)
      rfl rfl
    refine ⟨?_, hp, by norm_num⟩
    rw [wcf_t2_wins _ _ _ 25 75 hp (by rw [tickets_25, tickets_75])
        (by rw [tickets_25]; norm_num)]
    norm_num

/-- Witness for C10's universally quantified part at a concrete
distinct-name matchup. -/
theorem wcf_name_attribution_witness :
    (({ name := "A", seed := "1", division := "Midwest", odds := 1,
        probability := 1, previous_upset := true } : Team) =
       { name := "A", seed := "1", division := "Midwest", odds := 1,
         probability := 1, previous_upset := true } ∨
     ({ name := "A", seed := "1", division := "Midwest", odds := 1,
        probability := 1, previous_upset := true } : Team) =
       { name := "B", seed := "2", division := "Midwest", odds := 1/3,
         probability := 3, previous_upset := false }) ∧
    (({ name := "A", seed := "1", division := "Midwest", odds := 1,
        probability := 1, previous_upset := true } : Team).previous_upset = true ↔
      (({ name := "A", seed := "1", division := "Midwest", odds := 1,
          probability := 1, previous_upset := true } : Team) =
         { name := "A", seed := "1", division := "Midwest", odds := 1,
           probability := 1, previous_upset := true } ∧ (25 : ℚ) < 75)) ∧
    (({ name := "B", seed := "2", division := "Midwest", odds := 1/3,
        probability := 3, previous_upset := false } : Team).previous_upset = true ↔
      (({ name := "A", seed := "1", division := "Midwest", odds := 1,
          probability := 1, previous_upset := true } : Team) =
         { name := "B", seed := "2", division := "Midwest", odds := 1/3,
           probability := 3, previous_upset := false } ∧ (75 : ℚ) < 25)) :=
  wcf_name_attribution.1
    { name := "A", seed := "1", division := "Midwest", odds := 1,
      probability := 1, previous_upset := false }
    { name := "B", seed := "2", division := "Midwest", odds := 1/3,
      probability := 3, previous_upset := false }
    ⟨0, by norm_num⟩ 25 75 _ _ _
    (calc_eval_25_75 _ _ rfl rfl)
    (by
      rw [wcf_t1_wins _ _ _ 25 75 (calc_eval_25_75 _ _ rfl rfl)
          (by rw [tickets_25, tickets_75]) (by rw [tickets_25]; norm_num)]
      norm_num)
    (by decide)

end MarchMadness
